import Mathlib

/-!
Verification of the CLI adapter layer of the llm-council backend
(`backend/cli_adapter.py` together with the constants of `backend/config.py`).

The Python module is embedded shallowly:

* JSON values produced by `json.loads` are modelled by the inductive type
  `Json` below.  As in Python, a JSON `null` stored under a key is
  indistinguishable from an absent key through `dict.get`, so field lookup
  (`getField`) returns `Json.null` for absent keys.
* `json.loads` is modelled by the executable recursive-descent function
  `Json.parse` (whitespace, literals, strings with escapes, integers,
  arrays and objects; later duplicate object keys overwrite earlier ones,
  as in Python).  JSON numbers are modelled as integers: fraction or
  exponent parts are treated as a parse failure, which no claim exercises.
  `json.dumps(..., ensure_ascii=False)` is modelled by `Json.dumps`.
* Subprocess execution is the only effect.  The behaviour of the outside
  world is a parameter `env : Env` mapping a command line and a timeout to
  a `ProcOutcome` (either completion with an exit code and decoded output
  streams, or expiry of the timeout); `_run_cli` turns that outcome into
  the `(exit_code, stdout, stderr)` result of the Python coroutine.
* Python exceptions are modelled with `Except PyErr`: `ValueError` raised
  by argument validation, and the `AttributeError` that
  `_extract_last_message_from_codex_jsonl` raises when a line parses to a
  JSON value that is not an object (the code calls `.get` on it).
* Timeouts (Python floats) are modelled as rationals; `x or y` on floats
  treats `None` and `0.0` as falsy, which `pyOrTimeout` mirrors.
* A query result `{"content": c}` is represented by `some c`, and the
  `None` failure result by `none`.
-/

/-- Last element of a list, `none` for the empty list. -/
def lastOpt {α : Type} : List α → Option α
  | [] => none
  | [x] => some x
  | _ :: x :: xs => lastOpt (x :: xs)

/-- Lookup in a Python `dict` modelled as an association list with unique keys. -/
def pyDictGet {α : Type} : List (String × α) → String → Option α
  | [], _ => none
  | (k0, v) :: rest, k => if k0 = k then some v else pyDictGet rest k

/-- Insertion into a Python `dict`: an existing key keeps its position and has
its value overwritten, a new key is appended at the end. -/
def pyDictInsert {α : Type} : List (String × α) → String → α → List (String × α)
  | [], k, v => [(k, v)]
  | (k0, v0) :: rest, k, v =>
    if k0 = k then (k, v) :: rest else (k0, v0) :: pyDictInsert rest k v

/-- Fold of `pyDictInsert` over a pair list, with an explicit accumulator. -/
def pyDictOfPairsAux {α : Type} : List (String × α) → List (String × α) → List (String × α)
  | acc, [] => acc
  | acc, (k, v) :: ps => pyDictOfPairsAux (pyDictInsert acc k v) ps

/-- The Python dict built from a list of key-value pairs: for duplicate keys
the last value wins, as in a Python dict comprehension. -/
def pyDictOfPairs {α : Type} (ps : List (String × α)) : List (String × α) :=
  pyDictOfPairsAux [] ps

mutual
/-- JSON values as produced by `json.loads`.  Numbers are modelled as
integers (see the module comment). -/
inductive Json where
  | null
  | bool (b : Bool)
  | num (n : Int)
  | str (s : String)
  | arr (elems : JsonArr)
  | obj (fields : JsonObj)
deriving DecidableEq

/-- Spine of a JSON array (a nested-inductive-free list of `Json`). -/
inductive JsonArr where
  | nil
  | cons (hd : Json) (tl : JsonArr)
deriving DecidableEq

/-- Spine of a JSON object: ordered fields with unique keys. -/
inductive JsonObj where
  | nil
  | cons (k : String) (v : Json) (tl : JsonObj)
deriving DecidableEq
end

/-- `dict.get(key)` on a parsed JSON object.  Returns `Json.null` when the
key is absent, matching Python where `get` returns `None` and a stored JSON
`null` is also `None`. -/
def getField : JsonObj → String → Json
  | .nil, _ => .null
  | .cons k0 v rest, k => if k0 = k then v else getField rest k

/-- Python truthiness of a parsed JSON value: `None`, `False`, `0`, `""`,
`[]` and `{}` are falsy, everything else truthy. -/
def Json.isTruthy : Json → Bool
  | .null => false
  | .bool b => b
  | .num n => if n = 0 then false else true
  | .str s => if s = "" then false else true
  | .arr .nil => false
  | .arr (.cons _ _) => true
  | .obj .nil => false
  | .obj (.cons _ _ _) => true

/-- Python `a or b` on parsed JSON values: `a` if truthy, else `b`. -/
def pyOr (a b : Json) : Json := if a.isTruthy then a else b

/-- Value of a hexadecimal digit, `none` for other characters. -/
def hexVal (c : Char) : Option Nat :=
  if '0' ≤ c ∧ c ≤ '9' then some (c.toNat - '0'.toNat)
  else if 'a' ≤ c ∧ c ≤ 'f' then some (c.toNat - 'a'.toNat + 10)
  else if 'A' ≤ c ∧ c ≤ 'F' then some (c.toNat - 'A'.toNat + 10)
  else none

/-- JSON whitespace skipping (space, tab, newline, carriage return). -/
def skipWs : List Char → List Char
  | [] => []
  | c :: cs =>
    if c = ' ' ∨ c = '\t' ∨ c = '\n' ∨ c = '\r' then skipWs cs else c :: cs

/-- Single-character JSON string escapes (everything except `\\u`). -/
def escMap (e : Char) : Option Char :=
  if e = '"' then some '"'
  else if e = '\\' then some '\\'
  else if e = '/' then some '/'
  else if e = 'b' then some (Char.ofNat 8)
  else if e = 'f' then some (Char.ofNat 12)
  else if e = 'n' then some '\n'
  else if e = 'r' then some '\r'
  else if e = 't' then some '\t'
  else none

/-- Body of a JSON string after the opening quote: returns the decoded
characters and the input remaining after the closing quote.  Fuel-driven;
callers supply fuel no smaller than the input length. -/
def parseStr : Nat → List Char → Option (List Char × List Char)
  | 0, _ => none
  | fuel + 1, cs =>
    match cs with
    | [] => none
    | c :: rest =>
      if c = '"' then some ([], rest)
      else if c = '\\' then
        match rest with
        | [] => none
        | e :: r2 =>
          if e = 'u' then
            match r2 with
            | h1 :: h2 :: h3 :: h4 :: r3 =>
              match hexVal h1, hexVal h2, hexVal h3, hexVal h4 with
              | some a, some b, some c2, some d =>
                match parseStr fuel r3 with
                | some (acc, rem) =>
                  some (Char.ofNat (((a * 16 + b) * 16 + c2) * 16 + d) :: acc, rem)
                | none => none
              | _, _, _, _ => none
            | _ => none
          else
            match escMap e with
            | some ch =>
              match parseStr fuel r2 with
              | some (acc, rem) => some (ch :: acc, rem)
              | none => none
            | none => none
      else if c.toNat < 32 then none
      else
        match parseStr fuel rest with
        | some (acc, rem) => some (c :: acc, rem)
        | none => none

/-- Longest prefix of decimal digits together with the remaining input. -/
def spanDigits : List Char → List Char × List Char
  | [] => ([], [])
  | c :: cs =>
    if c.isDigit then
      match spanDigits cs with
      | (ds, rest) => (c :: ds, rest)
    else ([], c :: cs)

/-- Natural number denoted by a digit list. -/
def digitsVal : List Char → Nat → Nat
  | [], acc => acc
  | d :: ds, acc => digitsVal ds (acc * 10 + (d.toNat - '0'.toNat))

/-- JSON number at the head of the input.  Only integers are supported: a
following `.`, `e` or `E` makes the parse fail (see the module comment). -/
def parseNum (cs : List Char) : Option (Json × List Char) :=
  let (neg, cs2) := match cs with
    | '-' :: r => (true, r)
    | _ => (false, cs)
  match spanDigits cs2 with
  | ([], _) => none
  | (ds, rest) =>
    let n : Int := Int.ofNat (digitsVal ds 0)
    let v : Json := .num (if neg then -n else n)
    match rest with
    | [] => some (v, [])
    | c :: _ => if c = '.' ∨ c = 'e' ∨ c = 'E' then none else some (v, rest)

/-- Python-dict insertion on object spines (duplicate keys: last wins). -/
def objInsert : JsonObj → String → Json → JsonObj
  | .nil, k, v => .cons k v .nil
  | .cons k0 v0 rest, k, v =>
    if k0 = k then .cons k v rest else .cons k0 v0 (objInsert rest k v)

/-- Build an object spine from parsed members, later duplicates overwriting
earlier ones as `json.loads` does. -/
def objFromPairs : JsonObj → List (String × Json) → JsonObj
  | acc, [] => acc
  | acc, (k, v) :: ps => objFromPairs (objInsert acc k v) ps

mutual
/-- One JSON value at the head of the input (leading whitespace allowed). -/
def parseVal : Nat → List Char → Option (Json × List Char)
  | 0, _ => none
  | fuel + 1, cs =>
    match skipWs cs with
    | [] => none
    | c :: rest =>
      if c = 'n' then
        match rest with
        | 'u' :: 'l' :: 'l' :: r => some (.null, r)
        | _ => none
      else if c = 't' then
        match rest with
        | 'r' :: 'u' :: 'e' :: r => some (.bool true, r)
        | _ => none
      else if c = 'f' then
        match rest with
        | 'a' :: 'l' :: 's' :: 'e' :: r => some (.bool false, r)
        | _ => none
      else if c = '"' then
        match parseStr fuel rest with
        | some (chars, r) => some (.str (String.mk chars), r)
        | none => none
      else if c = '-' ∨ c.isDigit then parseNum (c :: rest)
      else if c = '[' then
        match skipWs rest with
        | ']' :: r => some (.arr .nil, r)
        | cs2 =>
          match parseElems fuel cs2 with
          | some (vs, r) => some (.arr vs, r)
          | none => none
      else if c = Char.ofNat 123 then
        match skipWs rest with
        | cs2 =>
          match cs2 with
          | c2 :: r =>
            if c2 = Char.ofNat 125 then some (.obj .nil, r)
            else
              match parseMembers fuel cs2 with
              | some (ms, r2) => some (.obj (objFromPairs .nil ms), r2)
              | none => none
          | [] => none
      else none

/-- Array elements `v (, v)* ]` after the opening bracket. -/
def parseElems : Nat → List Char → Option (JsonArr × List Char)
  | 0, _ => none
  | fuel + 1, cs =>
    match parseVal fuel cs with
    | none => none
    | some (v, r) =>
      match skipWs r with
      | ',' :: r2 =>
        match parseElems fuel r2 with
        | some (vs, r3) => some (.cons v vs, r3)
        | none => none
      | ']' :: r2 => some (.cons v .nil, r2)
      | _ => none

/-- Object members `"k" : v (, "k" : v)* }` after the opening brace. -/
def parseMembers : Nat → List Char → Option (List (String × Json) × List Char)
  | 0, _ => none
  | fuel + 1, cs =>
    match skipWs cs with
    | c :: rest =>
      if c = '"' then
        match parseStr fuel rest with
        | some (kcs, r) =>
          match skipWs r with
          | ':' :: r2 =>
            match parseVal fuel r2 with
            | some (v, r3) =>
              match skipWs r3 with
              | ',' :: r4 =>
                match parseMembers fuel r4 with
                | some (ms, r5) => some ((String.mk kcs, v) :: ms, r5)
                | none => none
              | c2 :: r4 =>
                if c2 = Char.ofNat 125 then some ([(String.mk kcs, v)], r4) else none
              | [] => none
            | none => none
          | _ => none
        | none => none
      else none
    | [] => none
end

/-- Model of `json.loads`: the whole input must be a single JSON value with
only whitespace around it, otherwise the parse fails (`JSONDecodeError`). -/
def Json.parse (s : String) : Option Json :=
  match parseVal (s.length + 16) s.toList with
  | some (j, rest) => if skipWs rest = [] then some j else none
  | none => none

/-- Hexadecimal digit character for a value below 16. -/
def hexDigit (n : Nat) : Char :=
  if n < 10 then Char.ofNat ('0'.toNat + n) else Char.ofNat ('a'.toNat + n - 10)

/-- String escaping of `json.dumps(..., ensure_ascii=False)`. -/
def escChar (c : Char) : String :=
  if c = '"' then "\\\""
  else if c = '\\' then "\\\\"
  else if c = '\n' then "\\n"
  else if c = '\r' then "\\r"
  else if c = '\t' then "\\t"
  else if c = Char.ofNat 8 then "\\b"
  else if c = Char.ofNat 12 then "\\f"
  else if c.toNat < 32 then
    "\\u00" ++ String.mk [hexDigit (c.toNat / 16), hexDigit (c.toNat % 16)]
  else String.singleton c

mutual
/-- Model of `json.dumps(payload, ensure_ascii=False)` with the default
separators `", "` and `": "`. -/
def Json.dumps : Json → String
  | .null => "null"
  | .bool true => "true"
  | .bool false => "false"
  | .num n => toString n
  | .str s => "\"" ++ String.join (s.toList.map escChar) ++ "\""
  | .arr vs => "[" ++ dumpsArr vs ++ "]"
  | .obj fs => (Char.ofNat 123).toString ++ dumpsObj fs ++ (Char.ofNat 125).toString

/-- Comma-separated serialization of array elements. -/
def dumpsArr : JsonArr → String
  | .nil => ""
  | .cons v .nil => Json.dumps v
  | .cons v (.cons w t) => Json.dumps v ++ ", " ++ dumpsArr (.cons w t)

/-- Comma-separated serialization of object members. -/
def dumpsObj : JsonObj → String
  | .nil => ""
  | .cons k v .nil => "\"" ++ String.join (k.toList.map escChar) ++ "\": " ++ Json.dumps v
  | .cons k v (.cons k2 v2 t) =>
    "\"" ++ String.join (k.toList.map escChar) ++ "\": " ++ Json.dumps v ++ ", " ++
      dumpsObj (.cons k2 v2 t)
end

/-- Characters stripped by Python `str.strip()` (the ASCII whitespace
subset; the code only ever strips ASCII tool output). -/
def pyIsSpace (c : Char) : Bool :=
  c = ' ' ∨ c = '\t' ∨ c = '\n' ∨ c = '\r' ∨ c = Char.ofNat 11 ∨ c = Char.ofNat 12

/-- Model of Python `str.strip()`. -/
def pyStrip (s : String) : String :=
  String.mk (((s.toList.dropWhile pyIsSpace).reverse.dropWhile pyIsSpace).reverse)

/-- Model of Python `str.splitlines()` for the `\n`, `\r\n` and `\r`
terminators: no trailing empty line for a terminator at the end. -/
def pySplitlinesAux : List Char → List Char → List String
  | acc, [] => if acc = [] then [] else [String.mk acc.reverse]
  | acc, '\r' :: '\n' :: rest => String.mk acc.reverse :: pySplitlinesAux [] rest
  | acc, '\n' :: rest => String.mk acc.reverse :: pySplitlinesAux [] rest
  | acc, '\r' :: rest => String.mk acc.reverse :: pySplitlinesAux [] rest
  | acc, c :: rest => pySplitlinesAux (c :: acc) rest

/-- Model of Python `str.splitlines()`. -/
def pySplitlines (s : String) : List String := pySplitlinesAux [] s.toList

/-- Python's `in` test for the single character `":"` on a string. -/
def splitFirstColon : List Char → Option (List Char × List Char)
  | [] => none
  | c :: cs =>
    if c = ':' then some ([], cs)
    else
      match splitFirstColon cs with
      | some (pre, post) => some (c :: pre, post)
      | none => none

/-- Whether `":" in model` holds. -/
def hasColon (model : String) : Bool := (splitFirstColon model.toList).isSome

/-- The provider prefix of `model.split(":", 1)`; for a string without a
separator this is the whole string (never consulted in that case). -/
def providerOf (model : String) : String :=
  match splitFirstColon model.toList with
  | some (pre, _) => String.mk pre
  | none => model

/-- The remainder of `model.split(":", 1)` after the first separator. -/
def modelNameOf (model : String) : String :=
  match splitFirstColon model.toList with
  | some (_, post) => String.mk post
  | none => ""

/-- Python exceptions that the adapter module can raise: `ValueError` from
argument validation in `query_model`, and the `AttributeError` that occurs
in `_extract_last_message_from_codex_jsonl` when a line parses to a JSON
value that is not an object (the code calls `.get` on the parsed value). -/
inductive PyErr where
  | valueError (msg : String)
  | attributeError
deriving DecidableEq

/-- The `(exit_code, stdout, stderr)` result of `_run_cli`.  The byte
streams are modelled after decoding: `decode("utf-8", errors="ignore")`
never raises, so the model works with the decoded text directly. -/
structure RunResult where
  code : Int
  stdout : String
  stderr : String
deriving DecidableEq

/-- Behaviour of one subprocess invocation: it either terminates within the
timeout with an exit code and captured streams, or the timeout elapses
first (in which case the code kills the process). -/
inductive ProcOutcome where
  | completed (returncode : Int) (stdout : String) (stderr : String)
  | timedOut
deriving DecidableEq

/-- The external world: what the subprocess started for a given command
line and timeout does.  Each query owns its invocation exclusively, so a
function is an adequate model. -/
def Env : Type := List String → Rat → ProcOutcome

/-- `_run_cli(cmd, timeout)`: on completion returns the exit code and the
decoded streams (empty bytes decode to `""`); if the timeout elapses the
process is killed and the sentinel `(-1, "", "timeout")` is returned. -/
def _run_cli (p : ProcOutcome) : RunResult :=
  match p with
  | .completed rc out err => ⟨rc, out, err⟩
  | .timedOut => ⟨-1, "", "timeout"⟩

/-- `CODEX_CLI` of `config.py` (environment override modelled by its
default value; no claim depends on the concrete path). -/
def CODEX_CLI : String := "codex"

/-- `CLAUDE_CLI` of `config.py`. -/
def CLAUDE_CLI : String := "claude"

/-- `GEMINI_CLI` of `config.py`. -/
def GEMINI_CLI : String := "gemini"

/-- `GROK_CLI` of `config.py`. -/
def GROK_CLI : String := "grok"

/-- `DEFAULT_TIMEOUT` of `config.py`: `float(os.getenv("LLM_CLI_TIMEOUT", "120"))`,
modelled by its fallback value. -/
def DEFAULT_TIMEOUT : Rat := 120

/-- The argument vector built by `_query_codex`. -/
def codexCmd (model_name prompt : String) : List String :=
  [CODEX_CLI, "exec", prompt, "-m", model_name, "--json"]

/-- The argument vector built by `_query_claude`. -/
def claudeCmd (model_name prompt : String) : List String :=
  [CLAUDE_CLI, "--print", "--output-format", "json", "--model", model_name, prompt]

/-- The argument vector built by `_query_gemini`. -/
def geminiCmd (model_name prompt : String) : List String :=
  [GEMINI_CLI, "-p", prompt, "-m", model_name]

/-- The argument vector built by `_query_grok` (with the quiet flag). -/
def grokCmd (model_name prompt : String) : List String :=
  [GROK_CLI, "-p", prompt, "-m", model_name, "-q"]

/-- The payload selected for a parsed JSONL line:
`obj.get("message") or obj.get("data") or obj.get("event")`. -/
def codexPayloadSel (fs : JsonObj) : Json :=
  pyOr (getField fs "message") (pyOr (getField fs "data") (getField fs "event"))

/-- The candidate contributed by one parsed JSONL object: the `content`
string of the selected payload when that payload is a dict, its `content`
is a string and its `role` is `None` (absent or JSON `null`) or
`"assistant"`. -/
def codexObjCand (fs : JsonObj) : Option String :=
  match codexPayloadSel fs with
  | .obj mfs =>
    match getField mfs "content" with
    | .str c =>
      if getField mfs "role" = Json.null ∨ getField mfs "role" = Json.str "assistant"
      then some c else none
    | _ => none
  | _ => none

/-- The candidate contributed by one line of Codex JSONL output: a line
that fails to parse is skipped; a line parsing to a JSON object yields
`codexObjCand`; a line parsing to any other JSON value makes the code call
`.get` on a non-dict and raise `AttributeError`. -/
def codexLineCand (line : String) : Except PyErr (Option String) :=
  match Json.parse line with
  | none => .ok none
  | some (.obj fs) => .ok (codexObjCand fs)
  | some _ => .error .attributeError

/-- The loop of `_extract_last_message_from_codex_jsonl`: every matching
line overwrites the recorded candidate (last one wins). -/
def codexFold : Option String → List String → Except PyErr (Option String)
  | acc, [] => .ok acc
  | acc, l :: ls =>
    match codexLineCand l with
    | .error e => .error e
    | .ok none => codexFold acc ls
    | .ok (some c) => codexFold (some c) ls

/-- The non-blank lines of the output, as iterated by the extraction loop. -/
def codexLines (output : String) : List String :=
  (pySplitlines output).filter (fun l => pyStrip l ≠ "")

/-- All candidates contributed by the lines of the output, in order. -/
def codexCands (lines : List String) : List String :=
  lines.filterMap (fun l =>
    match codexLineCand l with
    | .ok (some c) => some c
    | _ => none)

/-- `_extract_last_message_from_codex_jsonl`: last recorded candidate if it
is truthy (non-empty), else the stripped raw output
(`last_content or output.strip()`). -/
def _extract_last_message_from_codex_jsonl (output : String) : Except PyErr String :=
  match codexFold none (codexLines output) with
  | .error e => .error e
  | .ok last =>
    .ok (match last with
      | some c => if c = "" then pyStrip output else c
      | none => pyStrip output)

/-- The first stage of `_extract_claude_text`:
`completion = payload.get("completion") or payload.get("result") or {}`,
then `completion.get("text") or completion.get("content")` when
`completion` is a dict, returned when that is a string. -/
def claudeStageA (fs : JsonObj) : Option String :=
  match pyOr (getField fs "completion") (pyOr (getField fs "result") (Json.obj .nil)) with
  | .obj cfs =>
    match pyOr (getField cfs "text") (getField cfs "content") with
    | .str s => some s
    | _ => none
  | _ => none

/-- `_extract_claude_text`: defensive extraction of plain text from the
parsed Claude CLI JSON payload, with a `json.dumps` fallback. -/
def _extract_claude_text (payload : Json) : String :=
  match payload with
  | .obj fs =>
    match claudeStageA fs with
    | some s => s
    | none =>
      match pyOr (getField fs "output") (getField fs "text") with
      | .str s => s
      | _ =>
        match getField fs "message" with
        | .obj mfs =>
          match getField mfs "content" with
          | .str s => s
          | _ => Json.dumps payload
        | _ => Json.dumps payload
  | _ => Json.dumps payload

/-- The content `_query_claude` derives from captured stdout: parse the
whole output as JSON and extract text from it, falling back to the stripped
raw output when parsing fails. -/
def claudeContentOf (out : String) : String :=
  match Json.parse out with
  | none => pyStrip out
  | some payload => _extract_claude_text payload

/-- `_query_codex`: build the command, run it, return `None` on a non-zero
exit code, else extract the last assistant message from the JSONL output. -/
def _query_codex (env : Env) (model_name prompt : String) (timeout : Rat) :
    Except PyErr (Option String) :=
  let r := _run_cli (env (codexCmd model_name prompt) timeout)
  if r.code ≠ 0 then .ok none
  else
    match _extract_last_message_from_codex_jsonl r.stdout with
    | .ok content => .ok (some content)
    | .error e => .error e

/-- `_query_claude`: `None` on non-zero exit, else the extracted content. -/
def _query_claude (env : Env) (model_name prompt : String) (timeout : Rat) : Option String :=
  let r := _run_cli (env (claudeCmd model_name prompt) timeout)
  if r.code ≠ 0 then none
  else some (claudeContentOf r.stdout)

/-- `_query_gemini`: `None` on non-zero exit, else the stripped stdout. -/
def _query_gemini (env : Env) (model_name prompt : String) (timeout : Rat) : Option String :=
  let r := _run_cli (env (geminiCmd model_name prompt) timeout)
  if r.code ≠ 0 then none
  else some (pyStrip r.stdout)

/-- `_query_grok`: `None` on non-zero exit, else the stripped stdout. -/
def _query_grok (env : Env) (model_name prompt : String) (timeout : Rat) : Option String :=
  let r := _run_cli (env (grokCmd model_name prompt) timeout)
  if r.code ≠ 0 then none
  else some (pyStrip r.stdout)

/-- `messages[-1].get("content", "")` (only evaluated on a non-empty
history; the value for an empty one is immaterial). -/
def lastMessageContent (messages : List (List (String × String))) : String :=
  match lastOpt messages with
  | some m => (pyDictGet m "content").getD ""
  | none => ""

/-- `timeout = timeout or DEFAULT_TIMEOUT` on an optional float: `None` and
`0.0` are falsy, any other float is kept. -/
def pyOrTimeout (timeout : Option Rat) : Rat :=
  match timeout with
  | none => DEFAULT_TIMEOUT
  | some t => if t = 0 then DEFAULT_TIMEOUT else t

/-- `query_model`: validate the arguments (raising `ValueError`), resolve
the effective timeout, split the identifier at the first `":"` and dispatch
to the provider adapter.  The error message texts are abbreviated. -/
def query_model (env : Env) (model : String) (messages : List (List (String × String)))
    (timeout : Option Rat) : Except PyErr (Option String) :=
  let t := pyOrTimeout timeout
  if messages = [] then .error (.valueError "messages must contain at least one item")
  else
    let prompt := lastMessageContent messages
    if prompt = "" then .error (.valueError "last message must contain non-empty content")
    else if hasColon model = false then
      .error (.valueError ("Model identifier must be provider:model, got: " ++ model))
    else
      let provider := providerOf model
      let model_name := modelNameOf model
      if provider = "codex" then _query_codex env model_name prompt t
      else if provider = "claude" then .ok (_query_claude env model_name prompt t)
      else if provider = "gemini" then .ok (_query_gemini env model_name prompt t)
      else if provider = "grok" then .ok (_query_grok env model_name prompt t)
      else .error (.valueError ("Unknown provider in model identifier: " ++ provider))

/-- The `asyncio.gather(..., return_exceptions=False)` of the per-model
tasks: all individual results in input order, or a raised exception if any
task raises (the model propagates the leftmost one). -/
def gatherQueries (env : Env) (messages : List (List (String × String))) :
    List String → Except PyErr (List (Option String))
  | [] => .ok []
  | m :: ms =>
    match query_model env m messages none with
    | .error e => .error e
    | .ok r =>
      match gatherQueries env messages ms with
      | .error e => .error e
      | .ok rs => .ok (r :: rs)

/-- `query_models_parallel`: gather one `query_model` call per entry and
build the dict `{m: r for m, r in zip(models, results)}` (for duplicate
identifiers the last pair wins). -/
def query_models_parallel (env : Env) (models : List String)
    (messages : List (List (String × String))) :
    Except PyErr (List (String × Option String)) :=
  match gatherQueries env messages models with
  | .error e => .error e
  | .ok results => .ok (pyDictOfPairs (models.zip results))

/-- Whether an `Except` result is a success. -/
def exOk {ε α : Type} : Except ε α → Bool
  | .ok _ => true
  | .error _ => false

/-- The success value of an `Except` query result (failure side never
consulted under the hypotheses it is used with). -/
def okValD : Except PyErr (Option String) → Option String
  | .ok r => r
  | .error _ => none

/-- Whether a query raised `ValueError`. -/
def pyIsValueError : Except PyErr (Option String) → Bool
  | .error (.valueError _) => true
  | _ => false

/-- The four known provider prefixes. -/
def knownProviders : List String := ["codex", "claude", "gemini", "grok"]

/-- Decidable equality of `Except` results, so that concrete runs of the
embedded functions can be checked by `decide`. -/
instance {ε α : Type} [DecidableEq ε] [DecidableEq α] : DecidableEq (Except ε α) := fun a b =>
  match a, b with
  | .error e, .error f =>
    if h : e = f then .isTrue (by rw [h]) else .isFalse (fun hh => h (by injection hh))
  | .ok x, .ok y =>
    if h : x = y then .isTrue (by rw [h]) else .isFalse (fun hh => h (by injection hh))
  | .error _, .ok _ => .isFalse (fun hh => Except.noConfusion hh)
  | .ok _, .error _ => .isFalse (fun hh => Except.noConfusion hh)

/-- The values stored for a key among a list of pairs, in order: the dict
built from the pairs maps the key to the last of these. -/
def valuesFor {α : Type} (k : String) : List (String × α) → List α
  | [] => []
  | (k0, v) :: rest => if k0 = k then v :: valuesFor k rest else valuesFor k rest

/-- The payload selection as claim C8 words it: the first value among the
`message`, `data` and `event` keys that is not `None`. -/
def codexPayloadSelFirstNonNull (fs : JsonObj) : Json :=
  match List.find? (fun v => !(v == Json.null))
      [getField fs "message", getField fs "data", getField fs "event"] with
  | some v => v
  | none => Json.null

/-- The payload selection as the code actually behaves: the first truthy
value among the `message`, `data` and `event` keys, defaulting to the
`event` value (the last operand of the `or` chain) when none is truthy. -/
def codexPayloadSelFirstTruthy (fs : JsonObj) : Json :=
  match List.find? Json.isTruthy
      [getField fs "message", getField fs "data", getField fs "event"] with
  | some v => v
  | none => getField fs "event"

/-- Strategy (a) of the Shape-B priority search of claim C4: a `completion`
or `result` field that is a mapping yields its `text` or `content`
sub-field when that is a string. -/
def stratCompletionResult (payload : Json) : Option String :=
  match payload with
  | .obj fs =>
    match pyOr (getField fs "completion") (getField fs "result") with
    | .obj cfs =>
      match pyOr (getField cfs "text") (getField cfs "content") with
      | .str s => some s
      | _ => none
    | _ => none
  | _ => none

/-- Strategy (b): a top-level `output` or `text` field that is a string. -/
def stratOutputText (payload : Json) : Option String :=
  match payload with
  | .obj fs =>
    match pyOr (getField fs "output") (getField fs "text") with
    | .str s => some s
    | _ => none
  | _ => none

/-- Strategy (c): a `message` field that is a mapping yields its `content`
sub-field when that is a string. -/
def stratMessage (payload : Json) : Option String :=
  match payload with
  | .obj fs =>
    match getField fs "message" with
    | .obj mfs =>
      match getField mfs "content" with
      | .str s => some s
      | _ => none
    | _ => none
  | _ => none

/-- The Shape-B extraction stated as claim C4 words it: an ordered sequence
of strategies, first success wins, with re-serialization of the whole
payload as the final fallback. -/
def shapeBPriority (payload : Json) : String :=
  match stratCompletionResult payload with
  | some s => s
  | none =>
    match stratOutputText payload with
    | some s => s
    | none =>
      match stratMessage payload with
      | some s => s
      | none => Json.dumps payload



/-- The amended timeout resolution of claim C9: the caller-supplied value
when it is present and non-zero, else the process-wide default. -/
def effectiveTimeoutSpec (timeout : Option Rat) : Rat :=
  match timeout with
  | none => DEFAULT_TIMEOUT
  | some t => if t = 0 then DEFAULT_TIMEOUT else t

/-- Shape-A output with a user line followed by an assistant line. -/
def sampleXY : String :=
  "\x7b\"message\":\x7b\"role\":\"user\",\"content\":\"X\"\x7d\x7d\n\x7b\"message\":\x7b\"role\":\"assistant\",\"content\":\"Y\"\x7d\x7d"

/-- Shape-A output with two assistant lines, contents "A" then "B". -/
def sampleAB : String :=
  "\x7b\"message\":\x7b\"role\":\"assistant\",\"content\":\"A\"\x7d\x7d\n\x7b\"message\":\x7b\"role\":\"assistant\",\"content\":\"B\"\x7d\x7d"

/-- Shape-A output whose last matching assistant line has empty content. -/
def sampleEmptyLast : String :=
  "\x7b\"message\":\x7b\"role\":\"assistant\",\"content\":\"A\"\x7d\x7d\n\x7b\"message\":\x7b\"role\":\"assistant\",\"content\":\"\"\x7d\x7d"

/-- Shape-A output consisting of a single assistant line with empty content. -/
def sampleEmptyOnly : String :=
  "\x7b\"message\":\x7b\"role\":\"assistant\",\"content\":\"\"\x7d\x7d"

/-- A JSONL line whose `message` value is the falsy `\x7b\x7d` while `data`
carries the content. -/
def lineMsgData : String :=
  "\x7b\"message\": \x7b\x7d, \"data\": \x7b\"content\": \"Z\"\x7d\x7d"

/-- The parsed object fields of `lineMsgData`. -/
def fsMsgData : JsonObj :=
  .cons "message" (Json.obj .nil)
    (.cons "data" (Json.obj (.cons "content" (Json.str "Z") .nil)) .nil)

/-- A world in which every tool invocation exits 0 with stdout "out". -/
def envAlways0 : Env := fun _ _ => .completed 0 "out" ""

/-- A world in which every tool invocation exits 1. -/
def envAlways1 : Env := fun _ _ => .completed 1 "boom" "err"

/-- A world in which every tool invocation runs into the timeout. -/
def envTimed : Env := fun _ _ => .timedOut

/-- A world whose stdout reveals the timeout the subprocess was given:
"A" when invoked with the default timeout of 120, "B" otherwise. -/
def envByTimeout : Env :=
  fun _ t => if t = 120 then .completed 0 "A" "" else .completed 0 "B" ""

/-- A world that behaves like `envAlways0` at timeout 7 and times out at
any other timeout. -/
def envSeven : Env := fun cmd t => if t = 7 then envAlways0 cmd t else .timedOut

/-- A one-message history whose content is "hi". -/
def msgsHi : List (List (String × String)) := [[("content", "hi")]]


theorem lastOpt_cons {α : Type} (a : α) (l : List α) :
    lastOpt (a :: l) = (match lastOpt l with
      | some b => some b
      | none => some a) := by
  induction l generalizing a with
  | nil => rfl
  | cons x xs ih =>
    have h1 : lastOpt (a :: x :: xs) = lastOpt (x :: xs) := rfl
    rw [h1, ih x]
    cases hxs : lastOpt xs <;> simp

theorem lastOpt_mem {α : Type} {l : List α} {a : α} (h : lastOpt l = some a) : a ∈ l := by
  induction l with
  | nil => simp [lastOpt] at h
  | cons x xs ih =>
    rw [lastOpt_cons] at h
    cases hxs : lastOpt xs with
    | none => rw [hxs] at h; simp at h; simp [h]
    | some b =>
      rw [hxs] at h
      simp at h
      subst h
      exact List.mem_cons_of_mem x (ih hxs)

theorem lastOpt_isSome {α : Type} (x : α) (xs : List α) :
    ∃ a, lastOpt (x :: xs) = some a := by
  rw [lastOpt_cons]
  cases hxs : lastOpt xs <;> simp

theorem codexFold_ok (lines : List String)
    (h : ∀ l ∈ lines, exOk (codexLineCand l) = true) (acc : Option String) :
    codexFold acc lines = .ok (match lastOpt (codexCands lines) with
      | some c => some c
      | none => acc) := by
  induction lines generalizing acc with
  | nil => simp [codexFold, codexCands, lastOpt]
  | cons l ls ih =>
    have hl : exOk (codexLineCand l) = true := h l (by simp)
    have hls : ∀ x ∈ ls, exOk (codexLineCand x) = true := fun x hx => h x (by simp [hx])
    cases hc : codexLineCand l with
    | error e => rw [hc] at hl; simp [exOk] at hl
    | ok r =>
      cases r with
      | none =>
        have hstep : codexFold acc (l :: ls) = codexFold acc ls := by
          rw [codexFold, hc]
        have hcands : codexCands (l :: ls) = codexCands ls := by
          simp [codexCands, List.filterMap_cons, hc]
        rw [hstep, ih hls acc, hcands]
      | some c =>
        have hstep : codexFold acc (l :: ls) = codexFold (some c) ls := by
          rw [codexFold, hc]
        have hcands : codexCands (l :: ls) = c :: codexCands ls := by
          simp [codexCands, List.filterMap_cons, hc]
        rw [hstep, ih hls (some c), hcands, lastOpt_cons]
        cases hlast : lastOpt (codexCands ls) <;> simp

theorem extract_of_last_cand {output : String} {c : String}
    (h : ∀ l ∈ codexLines output, exOk (codexLineCand l) = true)
    (hlast : lastOpt (codexCands (codexLines output)) = some c) :
    _extract_last_message_from_codex_jsonl output =
      .ok (if c = "" then pyStrip output else c) := by
  unfold _extract_last_message_from_codex_jsonl
  rw [codexFold_ok (codexLines output) h none, hlast]

theorem codexLineCand_error {l : String} {e : PyErr}
    (h : codexLineCand l = .error e) : e = PyErr.attributeError := by
  unfold codexLineCand at h
  cases hp : Json.parse l with
  | none => rw [hp] at h; exact absurd h (by simp)
  | some j =>
    rw [hp] at h
    cases j <;> simp_all

theorem codexFold_error {lines : List String} {acc : Option String} {e : PyErr}
    (h : codexFold acc lines = .error e) : e = PyErr.attributeError := by
  induction lines generalizing acc with
  | nil => simp [codexFold] at h
  | cons l ls ih =>
    rw [codexFold] at h
    cases hc : codexLineCand l with
    | error e2 =>
      rw [hc] at h
      simp at h
      rw [← h]
      exact codexLineCand_error hc
    | ok r =>
      rw [hc] at h
      cases r with
      | none => exact ih h
      | some c => exact ih h

theorem extract_codex_error {output : String} {e : PyErr}
    (h : _extract_last_message_from_codex_jsonl output = .error e) :
    e = PyErr.attributeError := by
  unfold _extract_last_message_from_codex_jsonl at h
  cases hf : codexFold none (codexLines output) with
  | error e2 =>
    rw [hf] at h
    simp at h
    rw [← h]
    exact codexFold_error hf
  | ok last => rw [hf] at h; exact absurd h (by simp)

theorem query_codex_no_valueError (env : Env) (model_name prompt : String) (timeout : Rat) :
    pyIsValueError (_query_codex env model_name prompt timeout) = false := by
  unfold _query_codex
  by_cases hc : (_run_cli (env (codexCmd model_name prompt) timeout)).code ≠ 0
  · simp [hc, pyIsValueError]
  · simp only [hc, if_false]
    cases he : _extract_last_message_from_codex_jsonl
        (_run_cli (env (codexCmd model_name prompt) timeout)).stdout with
    | ok content => simp [pyIsValueError]
    | error e =>
      have := extract_codex_error he
      subst this
      simp [pyIsValueError]

theorem pyDictGet_insert {α : Type} (d : List (String × α)) (k1 k : String) (v : α) :
    pyDictGet (pyDictInsert d k1 v) k = if k1 = k then some v else pyDictGet d k := by
  induction d with
  | nil => simp [pyDictInsert, pyDictGet]
  | cons p rest ih =>
    obtain ⟨k0, v0⟩ := p
    by_cases h0 : k0 = k1
    · subst h0
      by_cases h : k0 = k <;> simp [pyDictInsert, pyDictGet, h]
    · have hins : pyDictInsert ((k0, v0) :: rest) k1 v = (k0, v0) :: pyDictInsert rest k1 v := by
        simp [pyDictInsert, h0]
      rw [hins]
      by_cases h2 : k0 = k
      · subst h2
        have hk1 : ¬(k1 = k0) := fun he => h0 he.symm
        simp [pyDictGet, hk1]
      · simp [pyDictGet, h2, ih]

theorem mem_keys_insert {α : Type} (d : List (String × α)) (a k : String) (v : α) :
    a ∈ (pyDictInsert d k v).map Prod.fst ↔ a = k ∨ a ∈ d.map Prod.fst := by
  induction d with
  | nil => simp [pyDictInsert]
  | cons p rest ih =>
    obtain ⟨k0, v0⟩ := p
    by_cases h0 : k0 = k
    · subst h0
      have : pyDictInsert ((k0, v0) :: rest) k0 v = (k0, v) :: rest := by simp [pyDictInsert]
      rw [this]
      simp
    · have hins : pyDictInsert ((k0, v0) :: rest) k v = (k0, v0) :: pyDictInsert rest k v := by
        simp [pyDictInsert, h0]
      rw [hins]
      simp [ih]
      tauto

theorem nodup_keys_insert {α : Type} (d : List (String × α)) (k : String) (v : α)
    (h : (d.map Prod.fst).Nodup) : ((pyDictInsert d k v).map Prod.fst).Nodup := by
  induction d with
  | nil => simp [pyDictInsert]
  | cons p rest ih =>
    obtain ⟨k0, v0⟩ := p
    simp only [List.map_cons, List.nodup_cons] at h
    by_cases h0 : k0 = k
    · subst h0
      have : pyDictInsert ((k0, v0) :: rest) k0 v = (k0, v) :: rest := by simp [pyDictInsert]
      rw [this]
      simp only [List.map_cons, List.nodup_cons]
      exact h
    · have hins : pyDictInsert ((k0, v0) :: rest) k v = (k0, v0) :: pyDictInsert rest k v := by
        simp [pyDictInsert, h0]
      rw [hins]
      simp only [List.map_cons, List.nodup_cons]
      constructor
      · intro hmem
        rcases (mem_keys_insert rest k0 k v).mp hmem with he | hm
        · exact absurd he h0
        · exact h.1 hm
      · exact ih h.2

theorem pyDictOfPairsAux_get {α : Type} (ps : List (String × α)) :
    ∀ (acc : List (String × α)) (k : String),
    pyDictGet (pyDictOfPairsAux acc ps) k =
      (match lastOpt (valuesFor k ps) with
        | some v => some v
        | none => pyDictGet acc k) := by
  induction ps with
  | nil => intro acc k; simp [pyDictOfPairsAux, valuesFor, lastOpt]
  | cons p rest ih =>
    intro acc k
    obtain ⟨k1, v1⟩ := p
    have hstep : pyDictOfPairsAux acc ((k1, v1) :: rest) =
        pyDictOfPairsAux (pyDictInsert acc k1 v1) rest := rfl
    rw [hstep, ih (pyDictInsert acc k1 v1) k]
    by_cases h : k1 = k
    · subst h
      have hv : valuesFor k1 ((k1, v1) :: rest) = v1 :: valuesFor k1 rest := by
        simp [valuesFor]
      rw [hv, lastOpt_cons]
      cases hl : lastOpt (valuesFor k1 rest) <;> simp [pyDictGet_insert]
    · have hv : valuesFor k ((k1, v1) :: rest) = valuesFor k rest := by
        simp [valuesFor, h]
      rw [hv]
      cases hl : lastOpt (valuesFor k rest) <;> simp [pyDictGet_insert, h]

theorem pyDictOfPairs_get {α : Type} (ps : List (String × α)) (k : String) :
    pyDictGet (pyDictOfPairs ps) k = lastOpt (valuesFor k ps) := by
  rw [pyDictOfPairs, pyDictOfPairsAux_get]
  cases hl : lastOpt (valuesFor k ps) <;> simp [pyDictGet]

theorem pyDictOfPairs_nodup_keys {α : Type} (ps : List (String × α)) :
    ((pyDictOfPairs ps).map Prod.fst).Nodup := by
  have haux : ∀ (acc : List (String × α)), (acc.map Prod.fst).Nodup →
      ((pyDictOfPairsAux acc ps).map Prod.fst).Nodup := by
    induction ps with
    | nil => intro acc h; exact h
    | cons p rest ih =>
      intro acc h
      obtain ⟨k1, v1⟩ := p
      exact ih (pyDictInsert acc k1 v1) (nodup_keys_insert acc k1 v1 h)
  exact haux [] (by simp)

theorem gatherQueries_ok (env : Env) (messages : List (List (String × String)))
    (models : List String)
    (h : ∀ m ∈ models, exOk (query_model env m messages none) = true) :
    gatherQueries env messages models =
      .ok (models.map (fun m => okValD (query_model env m messages none))) := by
  induction models with
  | nil => rfl
  | cons m ms ih =>
    have hm : exOk (query_model env m messages none) = true := h m (by simp)
    have hms : ∀ x ∈ ms, exOk (query_model env x messages none) = true :=
      fun x hx => h x (by simp [hx])
    rw [gatherQueries]
    cases hq : query_model env m messages none with
    | error e => rw [hq] at hm; simp [exOk] at hm
    | ok r =>
      rw [ih hms]
      simp [okValD, hq]

theorem zip_map_self {α β : Type} (g : α → β) (l : List α) :
    l.zip (l.map g) = l.map (fun a => (a, g a)) := by
  induction l with
  | nil => rfl
  | cons x xs ih => simp [ih]

theorem codexPayloadSel_eq_firstTruthy (fs : JsonObj) :
    codexPayloadSel fs = codexPayloadSelFirstTruthy fs := by
  unfold codexPayloadSel codexPayloadSelFirstTruthy pyOr
  by_cases h1 : (getField fs "message").isTruthy <;>
    by_cases h2 : (getField fs "data").isTruthy <;>
      by_cases h3 : (getField fs "event").isTruthy <;>
        simp [List.find?, h1, h2, h3]

theorem claudeStageA_eq (fs : JsonObj) : claudeStageA fs = stratCompletionResult (Json.obj fs) := by
  unfold claudeStageA stratCompletionResult pyOr
  by_cases h1 : (getField fs "completion").isTruthy
  · simp [h1]
  · by_cases h2 : (getField fs "result").isTruthy
    · simp [h1, h2]
    · simp only [h1, h2, Bool.false_eq_true, if_false]
      cases hr : getField fs "result" with
      | obj rfs =>
        cases rfs with
        | nil => simp [getField, Json.isTruthy]
        | cons k v t => rw [hr] at h2; simp [Json.isTruthy] at h2
      | null => simp [getField, Json.isTruthy]
      | bool b => simp [getField, Json.isTruthy]
      | num n => simp [getField, Json.isTruthy]
      | str s => simp [getField, Json.isTruthy]
      | arr es => simp [getField, Json.isTruthy]

theorem extract_claude_eq_priority (p : Json) :
    _extract_claude_text p = shapeBPriority p := by
  cases p with
  | obj fs =>
    simp only [_extract_claude_text, shapeBPriority]
    rw [claudeStageA_eq fs]
    cases hA : stratCompletionResult (Json.obj fs) with
    | some s => rfl
    | none =>
      simp only [stratOutputText, stratMessage]
      cases hB : pyOr (getField fs "output") (getField fs "text") with
      | str s => rfl
      | null =>
        cases hC : getField fs "message" with
        | obj mfs => cases hD : getField mfs "content" <;> simp [hD]
        | null => rfl
        | bool b => rfl
        | num n => rfl
        | str s => rfl
        | arr es => rfl
      | bool b =>
        cases hC : getField fs "message" with
        | obj mfs => cases hD : getField mfs "content" <;> simp [hD]
        | _ => rfl
      | num n =>
        cases hC : getField fs "message" with
        | obj mfs => cases hD : getField mfs "content" <;> simp [hD]
        | _ => rfl
      | arr es =>
        cases hC : getField fs "message" with
        | obj mfs => cases hD : getField mfs "content" <;> simp [hD]
        | _ => rfl
      | obj ofs =>
        cases hC : getField fs "message" with
        | obj mfs => cases hD : getField mfs "content" <;> simp [hD]
        | _ => rfl
  | null => rfl
  | bool b => rfl
  | num n => rfl
  | str s => rfl
  | arr es => rfl

theorem mem_valuesFor_map {β : Type} (g : String → β) (ms : List String) (m : String) (v : β)
    (hv : v ∈ valuesFor m (ms.map (fun x => (x, g x)))) : v = g m := by
  induction ms with
  | nil => simp [valuesFor] at hv
  | cons x xs ih =>
    simp only [List.map_cons, valuesFor] at hv
    by_cases hx : x = m
    · rw [if_pos hx] at hv
      rcases List.mem_cons.mp hv with he | hm2
      · rw [he, hx]
      · exact ih hm2
    · rw [if_neg hx] at hv
      exact ih hv

theorem lastOpt_valuesFor_map {β : Type} (g : String → β) (ms : List String) (m : String)
    (hm : m ∈ ms) :
    lastOpt (valuesFor m (ms.map (fun x => (x, g x)))) = some (g m) := by
  induction ms with
  | nil => simp at hm
  | cons x xs ih =>
    simp only [List.map_cons, valuesFor]
    by_cases hx : x = m
    · rw [if_pos hx, lastOpt_cons]
      cases hl : lastOpt (valuesFor m (xs.map (fun x => (x, g x)))) with
      | none => simp [hx]
      | some b =>
        have hb : b = g m := mem_valuesFor_map g xs m b (lastOpt_mem hl)
        simp [hb]
    · rw [if_neg hx]
      have hm2 : m ∈ xs := by
        rcases List.mem_cons.mp hm with he | hm2
        · exact absurd he.symm hx
        · exact hm2
      exact ih hm2

theorem valuesFor_map_eq_nil {β : Type} (g : String → β) (ms : List String) (m : String)
    (hm : m ∉ ms) : valuesFor m (ms.map (fun x => (x, g x))) = [] := by
  induction ms with
  | nil => rfl
  | cons x xs ih =>
    simp only [List.map_cons, valuesFor]
    have hx : ¬(x = m) := fun he => hm (by simp [he])
    rw [if_neg hx]
    exact ih (fun hm2 => hm (by simp [hm2]))

/-- Claim C1: whenever the message history is empty, or the last message
has empty (or missing) content, or the identifier has no `":"` separator,
or the provider prefix is not one of the four known providers, then
`query_model` raises `ValueError`; and the outcome does not depend on the
external world at all, i.e. no subprocess result is ever consulted. -/
theorem claim1_invalid_arguments (env : Env) (model : String)
    (messages : List (List (String × String))) (timeout : Option Rat)
    (h : messages = [] ∨ lastMessageContent messages = "" ∨ hasColon model = false ∨
      providerOf model ∉ knownProviders) :
    (∃ msg, query_model env model messages timeout = .error (.valueError msg)) ∧
    ∀ env2 : Env, query_model env2 model messages timeout =
      query_model env model messages timeout := by
  by_cases h1 : messages = []
  · exact ⟨⟨"messages must contain at least one item", by simp [query_model, h1]⟩,
      fun env2 => by simp [query_model, h1]⟩
  · by_cases h2 : lastMessageContent messages = ""
    · exact ⟨⟨"last message must contain non-empty content", by simp [query_model, h1, h2]⟩,
        fun env2 => by simp [query_model, h1, h2]⟩
    · by_cases h3 : hasColon model = false
      · exact ⟨⟨"Model identifier must be provider:model, got: " ++ model,
          by simp [query_model, h1, h2, h3]⟩,
          fun env2 => by simp [query_model, h1, h2, h3]⟩
      · have h4 : providerOf model ∉ knownProviders := by
          rcases h with h | h | h | h
          · exact absurd h h1
          · exact absurd h h2
          · exact absurd h h3
          · exact h
        simp [knownProviders] at h4
        obtain ⟨hp1, hp2, hp3, hp4⟩ := h4
        exact ⟨⟨"Unknown provider in model identifier: " ++ providerOf model,
          by simp [query_model, h1, h2, h3, hp1, hp2, hp3, hp4]⟩,
          fun env2 => by simp [query_model, h1, h2, h3, hp1, hp2, hp3, hp4]⟩

/-- Witness for claim C1 at the unknown provider `"foo"`. -/
theorem claim1_invalid_arguments_witness :
    (providerOf "foo:bar" ∉ knownProviders) ∧
    ((∃ msg, query_model envAlways0 "foo:bar" msgsHi none = .error (.valueError msg)) ∧
      ∀ env2 : Env, query_model env2 "foo:bar" msgsHi none =
        query_model envAlways0 "foo:bar" msgsHi none) :=
  ⟨by decide, claim1_invalid_arguments envAlways0 "foo:bar" msgsHi none
    (Or.inr (Or.inr (Or.inr (by decide))))⟩

/-- Claim C2: when every entry of `models` validates (its `query_model`
call returns a result instead of raising), the fan-out returns a dict that
maps each original identifier to that call's individual result, contains no
other key and no duplicate key, and in general maps a key to the last of
the values produced for it (last write wins for duplicates). -/
theorem claim2_parallel_mapping (env : Env) (models : List String)
    (messages : List (List (String × String)))
    (h : ∀ m ∈ models, exOk (query_model env m messages none) = true) :
    ∃ d, query_models_parallel env models messages = .ok d ∧
      (∀ m ∈ models, pyDictGet d m = some (okValD (query_model env m messages none))) ∧
      (∀ m, m ∉ models → pyDictGet d m = none) ∧
      (∀ m, pyDictGet d m =
        lastOpt (valuesFor m
          (models.map (fun x => (x, okValD (query_model env x messages none)))))) ∧
      (d.map Prod.fst).Nodup := by
  refine ⟨pyDictOfPairs (models.map (fun m => (m, okValD (query_model env m messages none)))),
    ?_, ?_, ?_, ?_, ?_⟩
  · rw [query_models_parallel, gatherQueries_ok env messages models h]
    exact congrArg Except.ok (congrArg pyDictOfPairs
      (zip_map_self (fun m => okValD (query_model env m messages none)) models))
  · intro m hm
    rw [pyDictOfPairs_get]
    exact lastOpt_valuesFor_map (fun m => okValD (query_model env m messages none)) models m hm
  · intro m hm
    rw [pyDictOfPairs_get,
      valuesFor_map_eq_nil (fun m => okValD (query_model env m messages none)) models m hm]
    rfl
  · intro m
    exact pyDictOfPairs_get _ _
  · exact pyDictOfPairs_nodup_keys _

/-- Witness for claim C2 on a three-entry batch with a duplicate. -/
theorem claim2_parallel_mapping_witness :
    (∀ m ∈ ["codex:a", "claude:b", "codex:a"],
      exOk (query_model envAlways0 m msgsHi none) = true) ∧
    (∃ d, query_models_parallel envAlways0 ["codex:a", "claude:b", "codex:a"] msgsHi = .ok d ∧
      (∀ m ∈ ["codex:a", "claude:b", "codex:a"],
        pyDictGet d m = some (okValD (query_model envAlways0 m msgsHi none))) ∧
      (∀ m, m ∉ ["codex:a", "claude:b", "codex:a"] → pyDictGet d m = none) ∧
      (∀ m, pyDictGet d m =
        lastOpt (valuesFor m
          ((["codex:a", "claude:b", "codex:a"]).map
            (fun x => (x, okValD (query_model envAlways0 x msgsHi none)))))) ∧
      (d.map Prod.fst).Nodup) :=
  ⟨by decide, claim2_parallel_mapping envAlways0 ["codex:a", "claude:b", "codex:a"] msgsHi
    (by decide)⟩

/-- Claim C3, corrected: on the two-line user/assistant sample the
extraction returns "Y"; and in general the last matching line's content is
the result provided that content is non-empty (an empty-string candidate
instead falls back to the stripped raw output, see the counterexample and
claim C10), on outputs where no line raises. -/
theorem claim3_last_nonempty_assistant_wins :
    _extract_last_message_from_codex_jsonl sampleXY = .ok "Y" ∧
    ∀ (output c : String), (∀ l ∈ codexLines output, exOk (codexLineCand l) = true) →
      lastOpt (codexCands (codexLines output)) = some c → c ≠ "" →
      _extract_last_message_from_codex_jsonl output = .ok c := by
  refine ⟨by decide, ?_⟩
  intro output c h hlast hc
  have h2 := extract_of_last_cand h hlast
  simpa [hc] using h2

/-- Witness for the general part of claim C3 on a two-assistant sample. -/
theorem claim3_last_nonempty_assistant_wins_witness :
    (∀ l ∈ codexLines sampleAB, exOk (codexLineCand l) = true) ∧
    lastOpt (codexCands (codexLines sampleAB)) = some "B" ∧ "B" ≠ "" ∧
    _extract_last_message_from_codex_jsonl sampleAB = .ok "B" :=
  ⟨by decide, by decide, by decide,
    claim3_last_nonempty_assistant_wins.2 sampleAB "B" (by decide) (by decide) (by decide)⟩

/-- Counterexample to claim C3 as stated: on an output whose last matching
assistant line has content `""`, the function does not return that
content but the whole stripped raw output. -/
theorem claim3_counterexample :
    lastOpt (codexCands (codexLines sampleEmptyLast)) = some "" ∧
    _extract_last_message_from_codex_jsonl sampleEmptyLast = .ok (pyStrip sampleEmptyLast) ∧
    pyStrip sampleEmptyLast ≠ "" := by
  refine ⟨by decide, by decide, by decide⟩

/-- Claim C4: the three concrete Shape-B cases hold, and in general the
extraction equals the four-stage priority search `shapeBPriority` stated
from the claim (with `x or y` selections read as in the code's Python:
first truthy operand). -/
theorem claim4_shapeB_priority :
    claudeContentOf "\x7b\"output\": \"hello\"\x7d" = "hello" ∧
    claudeContentOf "\x7b\"completion\":\x7b\"text\":\"hi\"\x7d\x7d" = "hi" ∧
    claudeContentOf "not json at all" = "not json at all" ∧
    ∀ payload : Json, _extract_claude_text payload = shapeBPriority payload :=
  ⟨by decide, by decide, by decide, extract_claude_eq_priority⟩

/-- Claim C5: in a world where every invocation exits non-zero, every
adapter returns `None` without raising and without consulting stdout, and
`query_model` passes that `None` through for every valid identifier. -/
theorem claim5_nonzero_exit_yields_null (env : Env)
    (h : ∀ cmd t, (_run_cli (env cmd t)).code ≠ 0) :
    (∀ name prompt t, _query_codex env name prompt t = .ok none) ∧
    (∀ name prompt t, _query_claude env name prompt t = none) ∧
    (∀ name prompt t, _query_gemini env name prompt t = none) ∧
    (∀ name prompt t, _query_grok env name prompt t = none) ∧
    (∀ model messages timeout, messages ≠ [] → lastMessageContent messages ≠ "" →
      hasColon model = true → providerOf model ∈ knownProviders →
      query_model env model messages timeout = .ok none) := by
  have hc : ∀ name prompt t, _query_codex env name prompt t = .ok none := by
    intro name prompt t
    simp [_query_codex, h (codexCmd name prompt) t]
  have hcl : ∀ name prompt t, _query_claude env name prompt t = none := by
    intro name prompt t
    simp [_query_claude, h (claudeCmd name prompt) t]
  have hg : ∀ name prompt t, _query_gemini env name prompt t = none := by
    intro name prompt t
    simp [_query_gemini, h (geminiCmd name prompt) t]
  have hk : ∀ name prompt t, _query_grok env name prompt t = none := by
    intro name prompt t
    simp [_query_grok, h (grokCmd name prompt) t]
  refine ⟨hc, hcl, hg, hk, ?_⟩
  intro model messages timeout hm hp hcol hprov
  have h3 : ¬(hasColon model = false) := by simp [hcol]
  simp only [knownProviders, List.mem_cons, List.mem_singleton] at hprov
  rcases hprov with hp1 | hp1 | hp1 | hp1 | hfalse
  · simp [query_model, hm, hp, h3, hp1, hc]
  · simp [query_model, hm, hp, h3, hp1, hcl]
  · simp [query_model, hm, hp, h3, hp1, hg]
  · simp [query_model, hm, hp, h3, hp1, hk]
  · simp at hfalse

/-- Witness for claim C5 in the world where every tool exits 1. -/
theorem claim5_nonzero_exit_yields_null_witness :
    (∀ cmd t, (_run_cli (envAlways1 cmd t)).code ≠ 0) ∧
    _query_codex envAlways1 "m" "p" 5 = .ok none ∧
    _query_claude envAlways1 "m" "p" 5 = none ∧
    _query_gemini envAlways1 "m" "p" 5 = none ∧
    _query_grok envAlways1 "m" "p" 5 = none ∧
    query_model envAlways1 "codex:m" msgsHi none = .ok none :=
  have h : ∀ cmd t, (_run_cli (envAlways1 cmd t)).code ≠ 0 := fun _ _ => by
    simp [envAlways1, _run_cli]
  ⟨h, (claim5_nonzero_exit_yields_null envAlways1 h).1 "m" "p" 5,
    (claim5_nonzero_exit_yields_null envAlways1 h).2.1 "m" "p" 5,
    (claim5_nonzero_exit_yields_null envAlways1 h).2.2.1 "m" "p" 5,
    (claim5_nonzero_exit_yields_null envAlways1 h).2.2.2.1 "m" "p" 5,
    (claim5_nonzero_exit_yields_null envAlways1 h).2.2.2.2 "codex:m" msgsHi none
      (by decide) (by decide) (by decide) (by decide)⟩

/-- Claim C6: a timed-out invocation is reported by the Process Runner as
exactly the sentinel `(-1, "", "timeout")`, and consequently every adapter
whose invocation times out returns `None`. -/
theorem claim6_timeout_sentinel (env : Env) :
    (∀ p : ProcOutcome, p = ProcOutcome.timedOut → _run_cli p = ⟨-1, "", "timeout"⟩) ∧
    (∀ name prompt t, env (codexCmd name prompt) t = ProcOutcome.timedOut →
      _query_codex env name prompt t = .ok none) ∧
    (∀ name prompt t, env (claudeCmd name prompt) t = ProcOutcome.timedOut →
      _query_claude env name prompt t = none) ∧
    (∀ name prompt t, env (geminiCmd name prompt) t = ProcOutcome.timedOut →
      _query_gemini env name prompt t = none) ∧
    (∀ name prompt t, env (grokCmd name prompt) t = ProcOutcome.timedOut →
      _query_grok env name prompt t = none) := by
  refine ⟨fun p hp => by rw [hp]; rfl, ?_, ?_, ?_, ?_⟩
  · intro name prompt t ht
    simp [_query_codex, ht, _run_cli]
  · intro name prompt t ht
    simp [_query_claude, ht, _run_cli]
  · intro name prompt t ht
    simp [_query_gemini, ht, _run_cli]
  · intro name prompt t ht
    simp [_query_grok, ht, _run_cli]

/-- Witness for claim C6 in the world where every invocation times out. -/
theorem claim6_timeout_sentinel_witness :
    _run_cli ProcOutcome.timedOut = ⟨-1, "", "timeout"⟩ ∧
    _query_codex envTimed "m" "p" 5 = .ok none ∧
    _query_claude envTimed "m" "p" 5 = none ∧
    _query_gemini envTimed "m" "p" 5 = none ∧
    _query_grok envTimed "m" "p" 5 = none :=
  ⟨(claim6_timeout_sentinel envTimed).1 ProcOutcome.timedOut rfl,
    (claim6_timeout_sentinel envTimed).2.1 "m" "p" 5 rfl,
    (claim6_timeout_sentinel envTimed).2.2.1 "m" "p" 5 rfl,
    (claim6_timeout_sentinel envTimed).2.2.2.1 "m" "p" 5 rfl,
    (claim6_timeout_sentinel envTimed).2.2.2.2 "m" "p" 5 rfl⟩

/-- Claim C7, corrected: with a valid message history, `query_model`
accepts an identifier (raises no `ValueError`) exactly when it contains at
least one `":"` and the text before the first `":"` is one of the four
known providers.  More than one separator is accepted (the remainder keeps
the extra separators); an empty provider is rejected because it is not a
known provider. -/
theorem claim7_accepts_iff_known_provider (env : Env) (model : String)
    (messages : List (List (String × String))) (timeout : Option Rat)
    (h1 : messages ≠ []) (h2 : lastMessageContent messages ≠ "") :
    pyIsValueError (query_model env model messages timeout) = false ↔
      (hasColon model = true ∧ providerOf model ∈ knownProviders) := by
  constructor
  · intro hok
    by_cases h3 : hasColon model = false
    · simp [query_model, h1, h2, h3, pyIsValueError] at hok
    · have hcol : hasColon model = true := by
        cases hb : hasColon model
        · exact absurd hb h3
        · rfl
      refine ⟨hcol, ?_⟩
      by_contra hprov
      simp [knownProviders] at hprov
      obtain ⟨hp1, hp2, hp3, hp4⟩ := hprov
      simp [query_model, h1, h2, h3, hp1, hp2, hp3, hp4, pyIsValueError] at hok
  · rintro ⟨hcol, hprov⟩
    have h3 : ¬(hasColon model = false) := by simp [hcol]
    simp only [knownProviders, List.mem_cons, List.mem_singleton] at hprov
    rcases hprov with hp1 | hp1 | hp1 | hp1 | hfalse
    · simp [query_model, h1, h2, h3, hp1]
      exact query_codex_no_valueError env (modelNameOf model) (lastMessageContent messages)
        (pyOrTimeout timeout)
    · simp [query_model, h1, h2, h3, hp1, pyIsValueError]
    · simp [query_model, h1, h2, h3, hp1, pyIsValueError]
    · simp [query_model, h1, h2, h3, hp1, pyIsValueError]
    · simp at hfalse

/-- Witness for claim C7 at the accepted identifier `"gemini:m"`. -/
theorem claim7_accepts_iff_known_provider_witness :
    [[("content", "hi")]] ≠ ([] : List (List (String × String))) ∧
    lastMessageContent msgsHi ≠ "" ∧
    (pyIsValueError (query_model envAlways0 "gemini:m" msgsHi none) = false ↔
      (hasColon "gemini:m" = true ∧ providerOf "gemini:m" ∈ knownProviders)) :=
  ⟨by decide, by decide,
    claim7_accepts_iff_known_provider envAlways0 "gemini:m" msgsHi none
      (by decide) (by decide)⟩

/-- Counterexample to claim C7 as stated: the identifier `"codex:a:b"`
contains two separators, yet it is accepted and dispatched (the remainder
`"a:b"` still contains a separator), instead of being rejected. -/
theorem claim7_counterexample :
    modelNameOf "codex:a:b" = "a:b" ∧
    hasColon (modelNameOf "codex:a:b") = true ∧
    query_model envAlways0 "codex:a:b" msgsHi none = .ok (some "out") ∧
    pyIsValueError (query_model envAlways0 "codex:a:b" msgsHi none) = false := by
  refine ⟨by decide, by decide, by decide, by decide⟩

/-- Claim C8, corrected: the payload examined for a parsed JSONL object is
the first truthy (not first non-null) value among the `message`, `data`
and `event` keys, the `event` value when none is truthy. -/
theorem claim8_first_truthy_selection :
    ∀ fs : JsonObj, codexPayloadSel fs = codexPayloadSelFirstTruthy fs :=
  codexPayloadSel_eq_firstTruthy

/-- Counterexample to claim C8 as stated: on a line whose `message` value
is the non-null but falsy `\x7b\x7d`, the code examines the `data` payload
and extracts "Z", while the first non-null value is the `message` one. -/
theorem claim8_counterexample :
    Json.parse lineMsgData = some (Json.obj fsMsgData) ∧
    codexPayloadSelFirstNonNull fsMsgData = Json.obj .nil ∧
    codexPayloadSel fsMsgData = Json.obj (.cons "content" (Json.str "Z") .nil) ∧
    codexPayloadSel fsMsgData ≠ codexPayloadSelFirstNonNull fsMsgData ∧
    _extract_last_message_from_codex_jsonl lineMsgData = .ok "Z" := by
  refine ⟨by decide, by decide, by decide, by decide, by decide⟩

/-- Claim C9, corrected: `query_model` consults the external world only at
the resolved timeout, which is the caller-supplied value when present and
non-zero, and `DEFAULT_TIMEOUT` when the caller supplies none or `0.0`
(Python `or` treats `0.0` as falsy). -/
theorem claim9_effective_timeout (env1 env2 : Env) (model : String)
    (messages : List (List (String × String))) (timeout : Option Rat)
    (h : ∀ cmd, env1 cmd (effectiveTimeoutSpec timeout) =
      env2 cmd (effectiveTimeoutSpec timeout)) :
    query_model env1 model messages timeout = query_model env2 model messages timeout := by
  have he : pyOrTimeout timeout = effectiveTimeoutSpec timeout := by
    cases timeout <;> rfl
  by_cases h1 : messages = []
  · simp [query_model, h1]
  · by_cases h2 : lastMessageContent messages = ""
    · simp [query_model, h1, h2]
    · by_cases h3 : hasColon model = false
      · simp [query_model, h1, h2, h3]
      · by_cases hp1 : providerOf model = "codex"
        · simp [query_model, h1, h2, h3, hp1, _query_codex, he, h]
        · by_cases hp2 : providerOf model = "claude"
          · simp [query_model, h1, h2, h3, hp1, hp2, _query_claude, he, h]
          · by_cases hp3 : providerOf model = "gemini"
            · simp [query_model, h1, h2, h3, hp1, hp2, hp3, _query_gemini, he, h]
            · by_cases hp4 : providerOf model = "grok"
              · simp [query_model, h1, h2, h3, hp1, hp2, hp3, hp4, _query_grok, he, h]
              · simp [query_model, h1, h2, h3, hp1, hp2, hp3, hp4]

/-- Witness for claim C9: two worlds that agree at the resolved timeout 7
(but differ elsewhere) give the same query result. -/
theorem claim9_effective_timeout_witness :
    (∀ cmd, envAlways0 cmd (effectiveTimeoutSpec (some 7)) =
      envSeven cmd (effectiveTimeoutSpec (some 7))) ∧
    query_model envAlways0 "gemini:m" msgsHi (some 7) =
      query_model envSeven "gemini:m" msgsHi (some 7) :=
  have h : ∀ cmd, envAlways0 cmd (effectiveTimeoutSpec (some 7)) =
      envSeven cmd (effectiveTimeoutSpec (some 7)) := fun cmd => by
    simp [envAlways0, envSeven, effectiveTimeoutSpec]
  ⟨h, claim9_effective_timeout envAlways0 envSeven "gemini:m" msgsHi (some 7) h⟩

/-- Counterexample to claim C9 as stated: with the caller-supplied timeout
`0.0` present, the adapter is invoked at `DEFAULT_TIMEOUT` (the world that
reveals its given timeout answers "A", its timeout-0 restriction would
answer "B"), so the caller-supplied value is not the one passed on. -/
theorem claim9_counterexample :
    DEFAULT_TIMEOUT = 120 ∧
    query_model envByTimeout "gemini:m" msgsHi (some 0) = .ok (some "A") ∧
    query_model (fun cmd _ => envByTimeout cmd 0) "gemini:m" msgsHi (some 0) = .ok (some "B") ∧
    query_model envByTimeout "gemini:m" msgsHi (some 0) ≠
      query_model (fun cmd _ => envByTimeout cmd 0) "gemini:m" msgsHi (some 0) := by
  refine ⟨rfl, by decide, by decide, by decide⟩

/-- Claim C10: a recorded candidate equal to the empty string does not win:
when the last matching line's content is `""`, the extraction returns the
entire stripped raw output instead. -/
theorem claim10_empty_candidate_falls_back (output : String)
    (h : ∀ l ∈ codexLines output, exOk (codexLineCand l) = true)
    (hlast : lastOpt (codexCands (codexLines output)) = some "") :
    _extract_last_message_from_codex_jsonl output = .ok (pyStrip output) := by
  have h2 := extract_of_last_cand h hlast
  simpa using h2

/-- Witness for claim C10 on a single empty-content assistant line. -/
theorem claim10_empty_candidate_falls_back_witness :
    (∀ l ∈ codexLines sampleEmptyOnly, exOk (codexLineCand l) = true) ∧
    lastOpt (codexCands (codexLines sampleEmptyOnly)) = some "" ∧
    _extract_last_message_from_codex_jsonl sampleEmptyOnly = .ok (pyStrip sampleEmptyOnly) :=
  ⟨by decide, by decide,
    claim10_empty_candidate_falls_back sampleEmptyOnly (by decide) (by decide)⟩
